import Mathlib

/-!
Shallow embedding of the lookup-and-group-format engine of `bot.py`
(get-green-bot): identifier normalizer, column addresser, row locator,
row extractor, report formatters, paginator and the message router.

Python strings are modelled as `List Char`; Python list indexing, which
raises `IndexError` when out of range, is modelled with `Option`; the
remote spreadsheet is a parameter recording the two read operations the
code performs.  Remote round trips are counted explicitly so that the
"no fetch performed" contracts can be stated.
-/

/-- A Python string, modelled as its list of characters. -/
abbrev Str := List Char

/-! ## Helpers (bot.py lines 86-108) -/

/-- Python `digits_only(s)`: `re.sub(r"\D+", "", str(s or ""))` removes every
character that is not a decimal digit (the embedding uses the ASCII digit
class `0`-`9`; `None` input is the empty list). -/
def digits_only (s : Str) : Str := s.filter Char.isDigit

/-- Python `col_to_a1(col_idx)`: the `while col_idx > 0` loop converting a 1-based
column index to bijective base-26 letters via `divmod(col_idx - 1, 26)`. -/
def col_to_a1 (n : Nat) : Str :=
  if n = 0 then []
  else col_to_a1 ((n - 1) / 26) ++ [Char.ofNat (65 + (n - 1) % 26)]
decreasing_by
  have h1 : (n - 1) / 26 ≤ n - 1 := Nat.div_le_self _ _
  omega

/-- Python `s.replace(pat, rep)` for a one-character pattern `pat`. -/
def replaceAll (c : Char) (rep : Str) : Str → Str
  | [] => []
  | x :: xs => (if x = c then rep else [x]) ++ replaceAll c rep xs

/-- amp entity -/
def ent_amp : Str := "&amp;".data
/-- lt entity -/
def ent_lt : Str := "&lt;".data
/-- gt entity -/
def ent_gt : Str := "&gt;".data

/-- Python `esc(s)`: `str(s or "").replace("&","&amp;").replace("<","&lt;").replace(">","&gt;")`. -/
def esc (s : Str) : Str :=
  replaceAll '>' ent_gt (replaceAll '<' ent_lt (replaceAll '&' ent_amp s))

/-- Python `a1(row, c1, c2)`: the range string `f"{c1}{row}:{c2}{row}"`. -/
def a1 (row : Nat) (c1 c2 : Str) : Str :=
  c1 ++ (Nat.repr row).data ++ [':'] ++ c2 ++ (Nat.repr row).data

/-- Python `flatten(blocks)`: for each 2D block keep its first row if the block and
that row are non-empty, concatenating the kept rows. -/
def flatten : List (List (List Str)) → List Str
  | [] => []
  | b :: bs =>
    match b with
    | [] => flatten bs
    | r0 :: _ => if r0 = [] then flatten bs else r0 ++ flatten bs

/-! ## The remote worksheet and the row locator (bot.py lines 110-140) -/

/-- The remote worksheet, seen through the two read operations `bot.py`
performs: `sheet.get(range)` (a 2D array of display text) and
`sheet.batch_get(ranges)` (one 2D block per requested range). -/
structure Sheet where
  get : Str → List (List Str)
  batch_get : List Str → List (List (List Str))

/-- The comprehension `[i + 2 for i, v in enumerate(col_vals) if digits_only(v) == qd]`,
with the enumeration started at index `i`. -/
def hitsFrom (qd : Str) : Nat → List Str → List Nat
  | _, [] => []
  | i, v :: vs => (if digits_only v = qd then [i + 2] else []) ++ hitsFrom qd (i + 1) vs

/-- Row numbers (≥ 2) of the search-column cells whose normalized digits equal `qd`. -/
def hits (colVals : List Str) (qd : Str) : List Nat := hitsFrom qd 0 colVals

/-- One iteration of the extraction loop: `sheet.batch_get([a1(r, s, e) ...])`
flattened, with `v or ""` applied to each value. -/
def extract_row (sheet : Sheet) (ranges : List (Str × Str)) (r : Nat) : List Str :=
  (flatten (sheet.batch_get (ranges.map (fun p => a1 r p.1 p.2)))).map
    (fun v => if v = [] then [] else v)

/-- Python `find_rows_in_col(sheet, col_idx, query, ranges)`.  The second component
counts remote round trips: `0` on the empty-digits short-circuit, otherwise
one `sheet.get` plus one `sheet.batch_get` per hit. -/
def find_rows_in_col (sheet : Sheet) (colIdx : Nat) (query : Str)
    (ranges : List (Str × Str)) : List (List Str) × Nat :=
  let qd := digits_only query
  if qd = [] then ([], 0)
  else
    let col_letter := col_to_a1 colIdx
    let rng := col_letter ++ ['2', ':'] ++ col_letter
    let got := sheet.get rng
    let col_vals := got.map (fun r => r.headD [])
    let hs := hits col_vals qd
    (hs.map (extract_row sheet ranges), 1 + hs.length)

/-! ## Report formatters (bot.py lines 143-206)

Python list indexing `r[i]` raises `IndexError` when `i` is out of range;
the formatters are therefore modelled in the `Option` monad, `none`
standing for a raised exception.  The label strings below reproduce the
source file's literals byte for byte (the file stores double-encoded
UTF-8 mojibake, hence the escape sequences). -/

/-- Python `esc(r[i])` under Python indexing: `none` models the `IndexError`. -/
def escAt (r : List Str) (i : Nat) : Option Str := r[i]?.map esc

/-- Sequential effect of a Python `for` loop that maps a fallible body over
a list: the first raised exception aborts the whole computation. -/
def mapOpt (f : α → Option β) : List α → Option (List β)
  | [] => some []
  | a :: as =>
    (f a).bind fun b =>
    (mapOpt f as).bind fun bs =>
    some (b :: bs)

/-- bot.py line 151 -/
def green_not_found : Str := "üîé GET-GREEN: topilmadi.".data
/-- bot.py line 182 -/
def sun_not_found : Str := "üîé SunHightech: topilmadi.".data

/-- bot.py line 155 -/
def g_lbl0 : Str := "<b>–î–æ–≥–æ–≤–æ—Ä:</b> ".data
/-- bot.py line 156 -/
def g_lbl7 : Str := "<b>–î–∞—Ç–∞:</b> ".data
/-- bot.py line 157 -/
def g_lbl8 : Str := "<b>–ú–µ–Ω–µ–¥–∂–µ—Ä:</b> ".data
/-- bot.py line 158 -/
def g_lbl9 : Str := "<b>Factura status:</b> ".data
/-- bot.py line 163 -/
def gi_lbl1 : Str := "<b>–ì—Ä—É–ø–ø–∞ —Ç–æ–≤–∞—Ä:</b> ".data
/-- bot.py line 164 -/
def gi_lbl2 : Str := "<b>–ù–∞–∏–º–µ–Ω–æ–≤–∞–Ω–∏–µ —Ç–æ–≤–∞—Ä–æ:</b> ".data
/-- bot.py line 165 -/
def gi_lbl3 : Str := "<b>–ï–¥.–∏–∑–º:</b> ".data
/-- bot.py line 166 -/
def gi_lbl4 : Str := "<b>–ö–æ–ª-–≤–æ:</b> ".data
/-- bot.py line 167 -/
def gi_lbl5 : Str := "<b>–¶–µ–Ω–∞:</b> ".data
/-- bot.py line 168 -/
def gi_lbl6 : Str := "<b>–°—É–º–º–∞:</b> ".data

/-- bot.py line 186 -/
def s_lbl0 : Str := "<b>–î–∞—Ç–∞:</b> ".data
/-- bot.py line 187 -/
def s_lbl1 : Str := "<b>–ö—É–≤–≤–∞—Ç:</b> ".data
/-- bot.py line 188 -/
def s_lbl2 : Str := "<b>–ö–æ–º–ø–∞–Ω–∏—è –Ω–æ–º–∏:</b> ".data
/-- bot.py line 189 -/
def s_lbl3 : Str := "<b>–®–∞—Ä—Ç–Ω–æ–º–∞ —Ä–∞–∫–∞–º–∏:</b> ".data
/-- bot.py line 190 -/
def s_lbl4 : Str := "<b>–®–∞—Ä—Ç–Ω–æ–º–∞ —Å–∞–Ω–∞—Å–∏:</b> ".data
/-- bot.py line 191 -/
def s_lbl5 : Str := "<b>–°–¢–ò–†:</b> ".data
/-- bot.py line 192 -/
def s_lbl6 : Str := "<b>–ú–ê–ù–ó–ò–õ:</b> ".data
/-- bot.py line 193 -/
def s_lbl13 : Str := "<b>–ù–æ–º–µ—Ä:</b> ".data
/-- bot.py line 194 -/
def s_lbl14 : Str := "<b>–°—Ç–∞—Ç—É—Å:</b> ".data
/-- bot.py line 199 -/
def si_lbl7 : Str := "<b>–ì—Ä—É–ø–ø–∞ —Ç–æ–≤–∞—Ä:</b> ".data
/-- bot.py line 200 -/
def si_lbl8 : Str := "<b>–ú–∞—Ö—Å—É–ª–æ—Ç –Ω–æ–º–∏:</b> ".data
/-- bot.py line 201 -/
def si_lbl10 : Str := "<b>–ú–∏“õ–¥–æ—Ä–∏:</b> ".data
/-- bot.py line 202 -/
def si_lbl11 : Str := "<b>–¶–µ–Ω–∞:</b> ".data
/-- bot.py line 203 -/
def si_lbl12 : Str := "<b>–°—É–º–º–∞:</b> ".data

/-- Header block of `format_green_grouped`: bot.py lines 153-160. -/
def green_header (head : List Str) : Option (List Str) :=
  (escAt head 0).bind fun v0 =>
  (escAt head 7).bind fun v7 =>
  (escAt head 8).bind fun v8 =>
  (escAt head 9).bind fun v9 =>
  some [g_lbl0 ++ v0, g_lbl7 ++ v7, g_lbl8 ++ v8, g_lbl9 ++ v9, []]

/-- One item block of `format_green_grouped`: bot.py lines 161-170. -/
def green_item (r : List Str) : Option (List Str) :=
  (escAt r 1).bind fun v1 =>
  (escAt r 2).bind fun v2 =>
  (escAt r 3).bind fun v3 =>
  (escAt r 4).bind fun v4 =>
  (escAt r 5).bind fun v5 =>
  (escAt r 6).bind fun v6 =>
  some [gi_lbl1 ++ v1, gi_lbl2 ++ v2, gi_lbl3 ++ v3, gi_lbl4 ++ v4,
        gi_lbl5 ++ v5, gi_lbl6 ++ v6, []]

/-- Header block of `format_sun_grouped`: bot.py lines 184-196. -/
def sun_header (head : List Str) : Option (List Str) :=
  (escAt head 0).bind fun v0 =>
  (escAt head 1).bind fun v1 =>
  (escAt head 2).bind fun v2 =>
  (escAt head 3).bind fun v3 =>
  (escAt head 4).bind fun v4 =>
  (escAt head 5).bind fun v5 =>
  (escAt head 6).bind fun v6 =>
  (escAt head 13).bind fun v13 =>
  (escAt head 14).bind fun v14 =>
  some [s_lbl0 ++ v0, s_lbl1 ++ v1, s_lbl2 ++ v2, s_lbl3 ++ v3, s_lbl4 ++ v4,
        s_lbl5 ++ v5, s_lbl6 ++ v6, s_lbl13 ++ v13, s_lbl14 ++ v14, []]

/-- One item block of `format_sun_grouped`: bot.py lines 197-205. -/
def sun_item (r : List Str) : Option (List Str) :=
  (escAt r 7).bind fun v7 =>
  (escAt r 8).bind fun v8 =>
  (escAt r 10).bind fun v10 =>
  (escAt r 11).bind fun v11 =>
  (escAt r 12).bind fun v12 =>
  some [si_lbl7 ++ v7, si_lbl8 ++ v8, si_lbl10 ++ v10, si_lbl11 ++ v11,
        si_lbl12 ++ v12, []]

/-- Python `"\n".join(parts)`. -/
def joinNL : List Str → Str
  | [] => []
  | [x] => x
  | x :: y :: t => x ++ '\n' :: joinNL (y :: t)

/-- Python `s.strip()`: drop whitespace from both ends. -/
def pyStrip (s : Str) : Str :=
  ((s.dropWhile Char.isWhitespace).reverse.dropWhile Char.isWhitespace).reverse

/-- Python `format_green_grouped(rows)`: bot.py lines 143-171; `none` models a
raised `IndexError`. -/
def format_green_grouped (rows : List (List Str)) : Option Str :=
  match rows with
  | [] => some green_not_found
  | head :: _ =>
    (green_header head).bind fun hd =>
    (mapOpt green_item rows).bind fun items =>
    some (pyStrip (joinNL (hd ++ items.flatten)))

/-- Python `format_sun_grouped(rows)`: bot.py lines 173-206; `none` models a
raised `IndexError`. -/
def format_sun_grouped (rows : List (List Str)) : Option Str :=
  match rows with
  | [] => some sun_not_found
  | head :: _ =>
    (sun_header head).bind fun hd =>
    (mapOpt sun_item rows).bind fun items =>
    some (pyStrip (joinNL (hd ++ items.flatten)))

/-! ## Paginator (bot.py lines 208-222) -/

/-- Python `text.split("\n")`. -/
def splitNL : Str → List Str
  | [] => [[]]
  | c :: cs =>
    if c = '\n' then [] :: splitNL cs
    else
      match splitNL cs with
      | [] => [[c]]
      | l :: ls => (c :: l) :: ls

/-- The chunking loop of `send_grouped` (bot.py lines 215-222): `chunk` is
the list of accumulated lines, `size` the running size; each emitted
message is `"\n".join(chunk)`. -/
def send_chunks : List Str → List Str → Nat → List Str
  | [], chunk, _ => if chunk = [] then [] else [joinNL chunk]
  | line :: rest, chunk, size =>
    if size + line.length + 1 > 3900 then
      joinNL chunk :: send_chunks rest [line] (line.length + 1)
    else
      send_chunks rest (chunk ++ [line]) (size + line.length + 1)

/-- The messages `send_grouped` emits for a report `text` (bot.py lines
211-222): one message when `len(text) <= 4000`, otherwise the chunking loop. -/
def send_grouped_chunks (text : Str) : List Str :=
  if text.length ≤ 4000 then [text]
  else send_chunks (splitNL text) [] 0

/-- Python `send_grouped(update, rows, mode)` (bot.py lines 208-222): format by
mode, then paginate; `none` models a formatter `IndexError`. -/
def send_grouped (rows : List (List Str)) (mode : Str) : Option (List Str) :=
  (if mode = "green".data then format_green_grouped rows
   else format_sun_grouped rows).bind fun text =>
  some (send_grouped_chunks text)

/-! ## Handlers (bot.py lines 224-290)

`context.user_data["mode"]` is the per-conversation session state,
modelled as `Option Str` (`none` for Python `None` / absent key).  The
allow-list test is a `Bool` parameter; the remote lookup together with
every failure it may raise is a parameter
`fetch : Bool → Str → Except Str (List (List Str))` whose `Bool` argument
records which branch of bot.py line 282 was taken (`true` = the
SunHightech sheet) and whose `Str` argument is the normalized query.
Each handler returns the new session state and the list of sent replies. -/

/-- bot.py lines 239 and 256 -/
def msg_no_permission : Str := "‚ùå Ruxsat yo‚Äòq.".data
/-- bot.py lines 242-244 -/
def msg_started : Str := "‚úÖ Bot ishga tushdi.\nQuyidagidan birini tanlang, so‚Äòng raqam yuboring:".data
/-- bot.py lines 248-252 -/
def msg_help : Str := "\uf8ffüßæ /start ‚Äî menyu\nSunHightech ‚Üí Q ustunidan qidiradi (B:L, O:Q, S)\nGET-GREEN ‚Üí P ustunidan qidiradi (B:H, R, S, AA)".data
/-- bot.py line 264 -/
def msg_sun_selected : Str := "‚úÖ SunHightech tanlandi. Endi raqam yuboring.".data
/-- bot.py line 268 -/
def msg_green_selected : Str := "‚úÖ GET-GREEN tanlandi. Endi raqam yuboring.".data
/-- bot.py line 273 -/
def msg_choose_first : Str := "Avval menyudan tanlang (SunHightech yoki GET-GREEN).".data
/-- bot.py line 278 -/
def msg_send_digits : Str := "\uf8ffüî¢ Iltimos, faqat raqam yuboring. Masalan: 1163".data
/-- bot.py line 290, the part before the interpolation -/
def msg_error_head : Str := "‚ö†Ô∏è Xatolik: ".data
/-- The text of the Python `IndexError` a too-short row raises inside the
`try` block (`str(e)` for a list index error). -/
def msg_index_error : Str := "list index out of range".data

/-- The first keyword set of bot.py line 262. -/
def sun_keywords : List Str := ["sunhightech".data, "sun hightech".data, "sun".data]
/-- The second keyword set of bot.py line 266. -/
def green_keywords : List Str := ["get-green".data, "getgreen".data, "green".data]

/-- Python `s.lower()` (ASCII case mapping in this embedding). -/
def pyLower (s : Str) : Str := s.map Char.toLower

/-- The `router` message handler (bot.py lines 254-290): returns the new
session mode and the replies sent.  A `fetch` error is the exception the
`try` block catches; a formatter `IndexError` is caught by the same block. -/
def router (allowed : Bool) (fetch : Bool → Str → Except Str (List (List Str)))
    (mode0 : Option Str) (input : Str) : Option Str × List Str :=
  if allowed = false then (mode0, [msg_no_permission])
  else
    let txt := pyStrip input
    let low := pyLower txt
    if low ∈ sun_keywords then (some ("sun".data), [msg_sun_selected])
    else if low ∈ green_keywords then (some ("green".data), [msg_green_selected])
    else
      match mode0 with
      | none => (mode0, [msg_choose_first])
      | some m =>
        if m = [] then (mode0, [msg_choose_first])
        else
          let q := digits_only txt
          if q = [] then (mode0, [msg_send_digits])
          else
            match (if m = "sun".data then fetch true q else fetch false q) with
            | .error e => (mode0, [msg_error_head ++ esc e])
            | .ok rows =>
              match send_grouped rows (if m = "sun".data then ("sun".data) else ("green".data)) with
              | none => (mode0, [msg_error_head ++ esc msg_index_error])
              | some chunks => (mode0, chunks)

/-- The `/start` handler (bot.py lines 237-245). -/
def start (allowed : Bool) (mode0 : Option Str) : Option Str × List Str :=
  if allowed = false then (mode0, [msg_no_permission])
  else (none, [msg_started])

/-- The `/help` handler (bot.py lines 247-252): never touches the mode. -/
def help_cmd (mode0 : Option Str) : Option Str × List Str :=
  (mode0, [msg_help])

/-- Session states reachable from a fresh conversation (`user_data` has no
`"mode"` key, i.e. `none`) by any sequence of handled updates. -/
inductive Reachable : Option Str → Prop where
  | init : Reachable none
  | startStep (allowed : Bool) {m : Option Str} :
      Reachable m → Reachable (start allowed m).1
  | helpStep {m : Option Str} :
      Reachable m → Reachable (help_cmd m).1
  | messageStep (allowed : Bool)
      (fetch : Bool → Str → Except Str (List (List Str)))
      (input : Str) {m : Option Str} :
      Reachable m → Reachable (router allowed fetch m input).1

/-! ## Characterization helpers -/

/-- Decoding bijective base-26 letters back to the 1-based column index:
the inverse convention of `col_to_a1`, used to state that no index is
skipped (spec §8 round trip). -/
def from_letters (s : Str) : Nat := s.foldl (fun acc c => acc * 26 + (c.toNat - 64)) 0

lemma from_letters_append (xs : Str) (c : Char) :
    from_letters (xs ++ [c]) = from_letters xs * 26 + (c.toNat - 64) := by
  simp [from_letters, List.foldl_append]

lemma char_ofNat_65 : ∀ k, k < 26 → (Char.ofNat (65 + k)).toNat = 65 + k := by decide

lemma char_ofNat_65_range : ∀ k, k < 26 →
    'A' ≤ Char.ofNat (65 + k) ∧ Char.ofNat (65 + k) ≤ 'Z' := by decide

lemma col_to_a1_inv : ∀ n : Nat, from_letters (col_to_a1 n) = n := by
  intro n
  induction n using Nat.strong_induction_on with
  | _ n ih =>
    rw [col_to_a1]
    by_cases h : n = 0
    · simp [h, from_letters]
    · rw [if_neg h, from_letters_append,
          ih ((n - 1) / 26) (by have := Nat.div_le_self (n - 1) 26; omega),
          char_ofNat_65 _ (Nat.mod_lt _ (by norm_num))]
      have h2 := Nat.div_add_mod (n - 1) 26
      omega

lemma col_to_a1_chars : ∀ n : Nat, ∀ c ∈ col_to_a1 n, 'A' ≤ c ∧ c ≤ 'Z' := by
  intro n
  induction n using Nat.strong_induction_on with
  | _ n ih =>
    rw [col_to_a1]
    by_cases h : n = 0
    · simp [h]
    · rw [if_neg h]
      intro c hc
      rcases List.mem_append.1 hc with h1 | h2
      · exact ih _ (by have := Nat.div_le_self (n - 1) 26; omega) c h1
      · have h2' := List.mem_singleton.mp h2
        subst h2'
        exact char_ofNat_65_range _ (Nat.mod_lt _ (by norm_num))

/-! ## Claim theorems: normalizer, sentinel, short-circuit, addresser -/

/-- C9: the Identifier Normalizer is total and idempotent: normalizing twice
equals normalizing once; a character survives iff it is a decimal digit of
the input; the empty (absent) input yields the empty output. -/
theorem claim_C9_normalizer :
    ∀ s : Str, digits_only (digits_only s) = digits_only s
      ∧ (∀ c : Char, c ∈ digits_only s ↔ c ∈ s ∧ c.isDigit)
      ∧ digits_only [] = [] := by
  intro s
  refine ⟨?_, ?_, rfl⟩
  · simp [digits_only, List.filter_filter]
  · intro c
    simp [digits_only, List.mem_filter]

/-- C6: on an empty row list each Report Formatter returns its profile's
exact fixed "not found" sentinel, a non-empty string, without raising. -/
theorem claim_C6_not_found :
    format_green_grouped [] = some green_not_found ∧ green_not_found ≠ []
      ∧ format_sun_grouped [] = some sun_not_found ∧ sun_not_found ≠ [] :=
  ⟨rfl, by decide, rfl, by decide⟩

/-- C4: a query whose normalized digit string is empty makes the Row Locator
return the empty sequence at once, with zero remote reads performed. -/
theorem claim_C4_empty_query :
    ∀ (sheet : Sheet) (colIdx : Nat) (query : Str) (ranges : List (Str × Str)),
      digits_only query = [] →
      find_rows_in_col sheet colIdx query ranges = ([], 0) := by
  intro sheet colIdx query ranges h
  simp [find_rows_in_col, h]

/-- A worksheet with no populated cells, used to instantiate the locator
theorems at a concrete input. -/
def emptySheet : Sheet := ⟨fun _ => [], fun _ => []⟩

theorem claim_C4_witness :
    digits_only ("abc".data) = [] ∧ digits_only ("".data) = []
      ∧ find_rows_in_col emptySheet 16 ("abc".data) [] = ([], 0)
      ∧ find_rows_in_col emptySheet 17 ("".data) [] = ([], 0) :=
  ⟨by decide, by decide, claim_C4_empty_query _ _ _ _ (by decide),
   claim_C4_empty_query _ _ _ _ (by decide)⟩

/-- C5: the Column Addresser realizes the bijective base-26 convention:
decoding its output returns the index (so no value is skipped and distinct
indices get distinct addresses), every output character lies in A-Z, and
the concrete columns used by the program map as the A1 convention demands. -/
theorem claim_C5_col_addresser :
    ∀ n : Nat, 1 ≤ n →
      from_letters (col_to_a1 n) = n
      ∧ (∀ c ∈ col_to_a1 n, 'A' ≤ c ∧ c ≤ 'Z')
      ∧ col_to_a1 1 = "A".data ∧ col_to_a1 26 = "Z".data ∧ col_to_a1 27 = "AA".data
      ∧ col_to_a1 52 = "AZ".data ∧ col_to_a1 53 = "BA".data
      ∧ col_to_a1 16 = "P".data ∧ col_to_a1 17 = "Q".data := by
  intro n _
  refine ⟨col_to_a1_inv n, col_to_a1_chars n, ?_, ?_, ?_, ?_, ?_, ?_, ?_⟩ <;>
    simp [col_to_a1]

theorem claim_C5_witness :
    1 ≤ 27 ∧ from_letters (col_to_a1 27) = 27 :=
  ⟨by norm_num, (claim_C5_col_addresser 27 (by norm_num)).1⟩

/-! ## Row locator: completeness and ordering (C3) -/

lemma hitsFrom_mem (qd : Str) :
    ∀ (vs : List Str) (i r : Nat),
      r ∈ hitsFrom qd i vs ↔
        ∃ j v, vs.get? j = some v ∧ digits_only v = qd ∧ r = i + 2 + j := by
  intro vs
  induction vs with
  | nil => simp [hitsFrom]
  | cons v vs ih =>
    intro i r
    simp only [hitsFrom, List.mem_append]
    constructor
    · rintro (h1 | h2)
      · by_cases hv : digits_only v = qd
        · rw [if_pos hv] at h1
          have := List.mem_singleton.mp h1
          exact ⟨0, v, rfl, hv, by omega⟩
        · rw [if_neg hv] at h1
          exact absurd h1 (List.not_mem_nil r)
      · obtain ⟨j, w, hj, hw, hr⟩ := (ih (i + 1) r).mp h2
        exact ⟨j + 1, w, by simpa using hj, hw, by omega⟩
    · rintro ⟨j, w, hj, hw, hr⟩
      cases j with
      | zero =>
        left
        simp at hj
        subst hj
        rw [if_pos hw]
        simp
        omega
      | succ j =>
        right
        refine (ih (i + 1) r).mpr ⟨j, w, by simpa using hj, hw, by omega⟩

lemma hitsFrom_lb (qd : Str) :
    ∀ (vs : List Str) (i : Nat), ∀ r ∈ hitsFrom qd i vs, i + 2 ≤ r := by
  intro vs
  induction vs with
  | nil => simp [hitsFrom]
  | cons v vs ih =>
    intro i r hr
    rcases List.mem_append.1 hr with h1 | h2
    · by_cases hv : digits_only v = qd
      · rw [if_pos hv] at h1
        have := List.mem_singleton.mp h1
        omega
      · rw [if_neg hv] at h1
        exact absurd h1 (List.not_mem_nil r)
    · have := ih (i + 1) r h2
      omega

lemma hitsFrom_sorted (qd : Str) :
    ∀ (vs : List Str) (i : Nat), List.Sorted (· < ·) (hitsFrom qd i vs) := by
  intro vs
  induction vs with
  | nil => intro i; simp [hitsFrom]
  | cons v vs ih =>
    intro i
    by_cases hv : digits_only v = qd
    · simp only [hitsFrom, if_pos hv, List.singleton_append]
      refine List.sorted_cons.mpr ⟨?_, ih (i + 1)⟩
      intro b hb
      have := hitsFrom_lb qd vs (i + 1) b hb
      omega
    · simpa [hitsFrom, if_neg hv] using ih (i + 1)

/-- C3: for a query with a non-empty normalized digit string, the Row
Locator's hit list contains a row number r iff r ≥ 2 and the cell at
position r−2 of the fetched column normalizes to the query's digits; the
hit list is strictly ascending; and `find_rows_in_col` returns exactly the
extraction of those hits in that order. -/
theorem claim_C3_locator :
    ∀ (colVals : List Str) (query : Str), digits_only query ≠ [] →
      (∀ r : Nat, r ∈ hits colVals (digits_only query) ↔
        2 ≤ r ∧ ∃ v, colVals.get? (r - 2) = some v ∧ digits_only v = digits_only query)
      ∧ List.Sorted (· < ·) (hits colVals (digits_only query))
      ∧ ∀ (sheet : Sheet) (colIdx : Nat) (ranges : List (Str × Str)),
          (find_rows_in_col sheet colIdx query ranges).1
            = (hits ((sheet.get (col_to_a1 colIdx ++ ['2', ':'] ++ col_to_a1 colIdx)).map
                (fun r => r.headD [])) (digits_only query)).map (extract_row sheet ranges) := by
  intro colVals query hq
  refine ⟨?_, hitsFrom_sorted _ colVals 0, ?_⟩
  · intro r
    rw [hits, hitsFrom_mem]
    constructor
    · rintro ⟨j, v, hj, hv, hr⟩
      exact ⟨by omega, v, by rwa [show r - 2 = j by omega], hv⟩
    · rintro ⟨h2, v, hv, hd⟩
      exact ⟨r - 2, v, hv, hd, by omega⟩
  · intro sheet colIdx ranges
    simp [find_rows_in_col, hq]

theorem claim_C3_witness :
    digits_only ("1163".data) ≠ [] ∧
      2 ∈ hits ["1,163".data, "x".data, "1163".data] (digits_only ("1163".data)) :=
  ⟨by decide,
   ((claim_C3_locator ["1,163".data, "x".data, "1163".data] ("1163".data) (by decide)).1 2).mpr
     ⟨by norm_num, "1,163".data, by decide, by decide⟩⟩

/-! ## Formatter definedness (C1) -/

lemma bind_const_none (x : Option α) : (x.bind fun _ => (none : Option β)) = none := by
  cases x <;> rfl

lemma bind_bind_some_isSome (x : Option α) (y : Option β) (g : α → β → γ) :
    (x.bind fun a => y.bind fun b => some (g a b)).isSome ↔ x.isSome ∧ y.isSome := by
  cases x <;> cases y <;> simp

lemma mapOpt_isSome (f : α → Option β) :
    ∀ l : List α, (mapOpt f l).isSome ↔ ∀ a ∈ l, (f a).isSome := by
  intro l
  induction l with
  | nil => simp [mapOpt]
  | cons a as ih =>
    rw [mapOpt, bind_bind_some_isSome]
    simp [ih]

lemma green_header_isSome (h : List Str) :
    (green_header h).isSome ↔ 10 ≤ h.length := by
  by_cases hl : 10 ≤ h.length
  · simp [green_header, escAt, hl,
      List.getElem?_eq_getElem (show 0 < h.length by omega),
      List.getElem?_eq_getElem (show 7 < h.length by omega),
      List.getElem?_eq_getElem (show 8 < h.length by omega),
      List.getElem?_eq_getElem (show 9 < h.length by omega)]
  · have e9 : h[9]? = none := List.getElem?_eq_none (by omega)
    have hnone : green_header h = none := by
      simp [green_header, escAt, e9, bind_const_none]
    rw [hnone]
    simp [hl]

lemma green_item_isSome (r : List Str) :
    (green_item r).isSome ↔ 7 ≤ r.length := by
  by_cases hl : 7 ≤ r.length
  · simp [green_item, escAt, hl,
      List.getElem?_eq_getElem (show 1 < r.length by omega),
      List.getElem?_eq_getElem (show 2 < r.length by omega),
      List.getElem?_eq_getElem (show 3 < r.length by omega),
      List.getElem?_eq_getElem (show 4 < r.length by omega),
      List.getElem?_eq_getElem (show 5 < r.length by omega),
      List.getElem?_eq_getElem (show 6 < r.length by omega)]
  · have e6 : r[6]? = none := List.getElem?_eq_none (by omega)
    have hnone : green_item r = none := by
      simp [green_item, escAt, e6, bind_const_none]
    rw [hnone]
    simp [hl]

lemma sun_header_isSome (h : List Str) :
    (sun_header h).isSome ↔ 15 ≤ h.length := by
  by_cases hl : 15 ≤ h.length
  · simp [sun_header, escAt, hl,
      List.getElem?_eq_getElem (show 0 < h.length by omega),
      List.getElem?_eq_getElem (show 1 < h.length by omega),
      List.getElem?_eq_getElem (show 2 < h.length by omega),
      List.getElem?_eq_getElem (show 3 < h.length by omega),
      List.getElem?_eq_getElem (show 4 < h.length by omega),
      List.getElem?_eq_getElem (show 5 < h.length by omega),
      List.getElem?_eq_getElem (show 6 < h.length by omega),
      List.getElem?_eq_getElem (show 13 < h.length by omega),
      List.getElem?_eq_getElem (show 14 < h.length by omega)]
  · have e14 : h[14]? = none := List.getElem?_eq_none (by omega)
    have hnone : sun_header h = none := by
      simp [sun_header, escAt, e14, bind_const_none]
    rw [hnone]
    simp [hl]

lemma sun_item_isSome (r : List Str) :
    (sun_item r).isSome ↔ 13 ≤ r.length := by
  by_cases hl : 13 ≤ r.length
  · simp [sun_item, escAt, hl,
      List.getElem?_eq_getElem (show 7 < r.length by omega),
      List.getElem?_eq_getElem (show 8 < r.length by omega),
      List.getElem?_eq_getElem (show 10 < r.length by omega),
      List.getElem?_eq_getElem (show 11 < r.length by omega),
      List.getElem?_eq_getElem (show 12 < r.length by omega)]
  · have e12 : r[12]? = none := List.getElem?_eq_none (by omega)
    have hnone : sun_item r = none := by
      simp [sun_item, escAt, e12, bind_const_none]
    rw [hnone]
    simp [hl]

/-- C1 counterexample: a GET-GREEN row with 8 fields — shorter than the
profile's declared 10 — makes the formatter raise (return `none`) instead
of rendering the missing fields as empty strings. -/
theorem claim_C1_cex :
    format_green_grouped [List.replicate 8 ("x".data)] = none
      ∧ (List.replicate 8 ("x".data)).length < 10 :=
  ⟨rfl, by decide⟩

/-- C1 (amended): the formatters tolerate no out-of-range field index: they
return a report exactly when every referenced index is in range — for
GET-GREEN the first row must have ≥ 10 fields and every row ≥ 7, for
SunHightech the first row ≥ 15 and every row ≥ 13 — and raise an
`IndexError` (modelled as `none`, which bot.py's query handler catches)
whenever a referenced index falls beyond a row's end. -/
theorem claim_C1_amended :
    ∀ rows : List (List Str),
      ((format_green_grouped rows).isSome ↔
        (rows = [] ∨ (10 ≤ (rows.headD []).length ∧ ∀ r ∈ rows, 7 ≤ r.length)))
      ∧ ((format_sun_grouped rows).isSome ↔
        (rows = [] ∨ (15 ≤ (rows.headD []).length ∧ ∀ r ∈ rows, 13 ≤ r.length))) := by
  intro rows
  cases rows with
  | nil => simp [format_green_grouped, format_sun_grouped]
  | cons head rest =>
    constructor
    · rw [format_green_grouped, bind_bind_some_isSome, green_header_isSome, mapOpt_isSome]
      constructor
      · rintro ⟨hh, hall⟩
        refine Or.inr ⟨by simpa using hh, ?_⟩
        intro r hr
        exact (green_item_isSome r).mp (hall r hr)
      · rintro (hnil | ⟨hh, hall⟩)
        · exact absurd hnil (by simp)
        · exact ⟨by simpa using hh, fun r hr => (green_item_isSome r).mpr (hall r hr)⟩
    · rw [format_sun_grouped, bind_bind_some_isSome, sun_header_isSome, mapOpt_isSome]
      constructor
      · rintro ⟨hh, hall⟩
        refine Or.inr ⟨by simpa using hh, ?_⟩
        intro r hr
        exact (sun_item_isSome r).mp (hall r hr)
      · rintro (hnil | ⟨hh, hall⟩)
        · exact absurd hnil (by simp)
        · exact ⟨by simpa using hh, fun r hr => (sun_item_isSome r).mpr (hall r hr)⟩

theorem claim_C1_witness :
    (format_green_grouped [List.replicate 10 ("x".data)]).isSome :=
  (claim_C1_amended [List.replicate 10 ("x".data)]).1.mpr (Or.inr ⟨by decide, by decide⟩)

/-! ## Escaping (C7) -/

/-- Per-character entity substitution: the effect of the three sequential
replaces of `esc` on one character. -/
def escChar (c : Char) : Str :=
  if c = '&' then ent_amp else if c = '<' then ent_lt
  else if c = '>' then ent_gt else [c]

lemma replaceAll_append (c : Char) (rep : Str) :
    ∀ xs ys : Str, replaceAll c rep (xs ++ ys) = replaceAll c rep xs ++ replaceAll c rep ys := by
  intro xs ys
  induction xs with
  | nil => rfl
  | cons x xs ih => simp [replaceAll, ih]

lemma esc_cons (c : Char) (s : Str) : esc (c :: s) = escChar c ++ esc s := by
  have h1 : replaceAll '&' ent_amp (c :: s)
      = (if c = '&' then ent_amp else [c]) ++ replaceAll '&' ent_amp s := rfl
  rw [esc, h1, replaceAll_append, replaceAll_append]
  show _ ++ _ = _ ++ esc s
  congr 1
  by_cases h2 : c = '&'
  · subst h2; decide
  · by_cases h3 : c = '<'
    · subst h3; decide
    · by_cases h4 : c = '>'
      · subst h4; decide
      · simp [replaceAll, escChar, h2, h3, h4]

lemma esc_eq_flatten (s : Str) : esc s = (s.map escChar).flatten := by
  induction s with
  | nil => rfl
  | cons c s ih => rw [esc_cons, ih]; simp

lemma escChar_no_lt : ∀ a : Char, '<' ∉ escChar a := by
  intro a
  unfold escChar
  split_ifs with h1 h2 h3
  · decide
  · decide
  · decide
  · simp
    exact fun h => h2 h.symm

lemma escChar_no_gt : ∀ a : Char, '>' ∉ escChar a := by
  intro a
  unfold escChar
  split_ifs with h1 h2 h3
  · decide
  · decide
  · decide
  · simp
    exact fun h => h3 h.symm

lemma esc_no_lt (s : Str) : '<' ∉ esc s := by
  rw [esc_eq_flatten]
  intro h
  obtain ⟨l, hl, hcl⟩ := List.mem_flatten.mp h
  obtain ⟨a, _, rfl⟩ := List.mem_map.mp hl
  exact escChar_no_lt a hcl

lemma esc_no_gt (s : Str) : '>' ∉ esc s := by
  rw [esc_eq_flatten]
  intro h
  obtain ⟨l, hl, hcl⟩ := List.mem_flatten.mp h
  obtain ⟨a, _, rfl⟩ := List.mem_map.mp hl
  exact escChar_no_gt a hcl

lemma count_esc_lt (s : Str) : (esc s).count '<' = 0 :=
  List.count_eq_zero.mpr (esc_no_lt s)

lemma count_esc_gt (s : Str) : (esc s).count '>' = 0 :=
  List.count_eq_zero.mpr (esc_no_gt s)

lemma count_joinNL (c : Char) (hc : c ≠ '\n') :
    ∀ xs : List Str, (joinNL xs).count c = (xs.map (fun l => l.count c)).sum := by
  intro xs
  induction xs with
  | nil => simp [joinNL]
  | cons x t ih =>
    cases t with
    | nil => simp [joinNL]
    | cons y tt =>
      rw [joinNL, List.count_append, List.count_cons]
      simp only [ih, List.map_cons, List.sum_cons]
      have : ('\n' = c) = False := by simp [Ne.symm hc]
      simp [this]

lemma count_dropWhile_ws (c : Char) (hc : ¬ c.isWhitespace) :
    ∀ t : Str, (t.dropWhile Char.isWhitespace).count c = t.count c := by
  intro t
  induction t with
  | nil => rfl
  | cons a t ih =>
    by_cases ha : Char.isWhitespace a
    · have hne : (a = c) = False := by
        simp
        rintro rfl
        exact hc ha
      simp [List.dropWhile_cons, ha, ih, List.count_cons, hne]
    · simp [List.dropWhile_cons, ha]

lemma count_pyStrip (c : Char) (hc : ¬ c.isWhitespace) (s : Str) :
    (pyStrip s).count c = s.count c := by
  unfold pyStrip
  rw [List.count_reverse, count_dropWhile_ws c hc, List.count_reverse,
      count_dropWhile_ws c hc]

lemma green_header_inv (head lines : List Str) (hh : green_header head = some lines) :
    ∃ a0 a7 a8 a9,
      lines = [g_lbl0 ++ esc a0, g_lbl7 ++ esc a7, g_lbl8 ++ esc a8, g_lbl9 ++ esc a9, []] := by
  unfold green_header escAt at hh
  rcases e0 : head[0]? with _ | a0 <;> rw [e0] at hh
  · simp at hh
  rcases e7 : head[7]? with _ | a7 <;> rw [e7] at hh
  · simp at hh
  rcases e8 : head[8]? with _ | a8 <;> rw [e8] at hh
  · simp at hh
  rcases e9 : head[9]? with _ | a9 <;> rw [e9] at hh
  · simp at hh
  simp only [Option.map_some', Option.some_bind, Option.some.injEq] at hh
  exact ⟨a0, a7, a8, a9, hh.symm⟩

lemma green_item_inv (r b : List Str) (hb : green_item r = some b) :
    ∃ a1 a2 a3 a4 a5 a6,
      b = [gi_lbl1 ++ esc a1, gi_lbl2 ++ esc a2, gi_lbl3 ++ esc a3, gi_lbl4 ++ esc a4,
           gi_lbl5 ++ esc a5, gi_lbl6 ++ esc a6, []] := by
  unfold green_item escAt at hb
  rcases e1 : r[1]? with _ | a1 <;> rw [e1] at hb
  · simp at hb
  rcases e2 : r[2]? with _ | a2 <;> rw [e2] at hb
  · simp at hb
  rcases e3 : r[3]? with _ | a3 <;> rw [e3] at hb
  · simp at hb
  rcases e4 : r[4]? with _ | a4 <;> rw [e4] at hb
  · simp at hb
  rcases e5 : r[5]? with _ | a5 <;> rw [e5] at hb
  · simp at hb
  rcases e6 : r[6]? with _ | a6 <;> rw [e6] at hb
  · simp at hb
  simp only [Option.map_some', Option.some_bind, Option.some.injEq] at hb
  exact ⟨a1, a2, a3, a4, a5, a6, hb.symm⟩

lemma sun_header_inv (head lines : List Str) (hh : sun_header head = some lines) :
    ∃ a0 a1 a2 a3 a4 a5 a6 a13 a14,
      lines = [s_lbl0 ++ esc a0, s_lbl1 ++ esc a1, s_lbl2 ++ esc a2, s_lbl3 ++ esc a3,
               s_lbl4 ++ esc a4, s_lbl5 ++ esc a5, s_lbl6 ++ esc a6,
               s_lbl13 ++ esc a13, s_lbl14 ++ esc a14, []] := by
  unfold sun_header escAt at hh
  rcases e0 : head[0]? with _ | a0 <;> rw [e0] at hh
  · simp at hh
  rcases e1 : head[1]? with _ | a1 <;> rw [e1] at hh
  · simp at hh
  rcases e2 : head[2]? with _ | a2 <;> rw [e2] at hh
  · simp at hh
  rcases e3 : head[3]? with _ | a3 <;> rw [e3] at hh
  · simp at hh
  rcases e4 : head[4]? with _ | a4 <;> rw [e4] at hh
  · simp at hh
  rcases e5 : head[5]? with _ | a5 <;> rw [e5] at hh
  · simp at hh
  rcases e6 : head[6]? with _ | a6 <;> rw [e6] at hh
  · simp at hh
  rcases e13 : head[13]? with _ | a13 <;> rw [e13] at hh
  · simp at hh
  rcases e14 : head[14]? with _ | a14 <;> rw [e14] at hh
  · simp at hh
  simp only [Option.map_some', Option.some_bind, Option.some.injEq] at hh
  exact ⟨a0, a1, a2, a3, a4, a5, a6, a13, a14, hh.symm⟩

lemma sun_item_inv (r b : List Str) (hb : sun_item r = some b) :
    ∃ a7 a8 a10 a11 a12,
      b = [si_lbl7 ++ esc a7, si_lbl8 ++ esc a8, si_lbl10 ++ esc a10,
           si_lbl11 ++ esc a11, si_lbl12 ++ esc a12, []] := by
  unfold sun_item escAt at hb
  rcases e7 : r[7]? with _ | a7 <;> rw [e7] at hb
  · simp at hb
  rcases e8 : r[8]? with _ | a8 <;> rw [e8] at hb
  · simp at hb
  rcases e10 : r[10]? with _ | a10 <;> rw [e10] at hb
  · simp at hb
  rcases e11 : r[11]? with _ | a11 <;> rw [e11] at hb
  · simp at hb
  rcases e12 : r[12]? with _ | a12 <;> rw [e12] at hb
  · simp at hb
  simp only [Option.map_some', Option.some_bind, Option.some.injEq] at hb
  exact ⟨a7, a8, a10, a11, a12, hb.symm⟩

lemma mapOpt_flatten_count (f : List Str → Option (List Str)) (c : Char) (k : Nat)
    (hf : ∀ r b, f r = some b → (b.map (fun l => l.count c)).sum = k) :
    ∀ rows items, mapOpt f rows = some items →
      (items.flatten.map (fun l => l.count c)).sum = k * rows.length := by
  intro rows
  induction rows with
  | nil =>
    intro items h
    simp [mapOpt] at h
    subst h
    simp
  | cons r rs ih =>
    intro items h
    rw [mapOpt] at h
    rcases e1 : f r with _ | b <;> rw [e1] at h
    · simp at h
    rcases e2 : mapOpt f rs with _ | bs <;> rw [e2] at h
    · simp at h
    simp only [Option.some_bind, Option.some.injEq] at h
    subst h
    rw [List.flatten_cons, List.map_append, List.sum_append, hf r b e1, ih bs e2]
    simp [Nat.mul_succ]
    omega

/-- C7: `esc` replaces every occurrence of `&`, `<`, `>` by its entity (it
is exactly the per-character entity substitution), leaving no raw `<` or
`>` in any escaped value; and since both formatters escape every
interpolated value, the number of `<` (resp. `>`) characters in a rendered
report is exactly the number contributed by the fixed markup template — 8
plus 12 per row for GET-GREEN, 18 plus 10 per row for SunHightech —
independent of the record data. -/
theorem claim_C7_escaping :
    (∀ s : Str, esc s = (s.map escChar).flatten ∧ '<' ∉ esc s ∧ '>' ∉ esc s)
    ∧ (∀ rows out, format_green_grouped rows = some out → rows ≠ [] →
        out.count '<' = 8 + 12 * rows.length ∧ out.count '>' = 8 + 12 * rows.length)
    ∧ (∀ rows out, format_sun_grouped rows = some out → rows ≠ [] →
        out.count '<' = 18 + 10 * rows.length ∧ out.count '>' = 18 + 10 * rows.length) := by
  refine ⟨fun s => ⟨esc_eq_flatten s, esc_no_lt s, esc_no_gt s⟩, ?_, ?_⟩
  · intro rows out hout hne
    cases rows with
    | nil => exact absurd rfl hne
    | cons head rest =>
      rw [format_green_grouped] at hout
      rcases e1 : green_header head with _ | hd <;> rw [e1] at hout
      · simp at hout
      rcases e2 : mapOpt green_item (head :: rest) with _ | items <;> rw [e2] at hout
      · simp at hout
      simp only [Option.some_bind, Option.some.injEq] at hout
      subst hout
      have hhd : ∀ c : Char, (∀ v : Str, (esc v).count c = 0) →
          g_lbl0.count c = 2 → g_lbl7.count c = 2 → g_lbl8.count c = 2 → g_lbl9.count c = 2 →
          (hd.map (fun l => l.count c)).sum = 8 := by
        intro c hesc h0 h7 h8 h9
        obtain ⟨a0, a7, a8, a9, rfl⟩ := green_header_inv head hd e1
        simp [List.count_append, hesc, h0, h7, h8, h9]
      have hitem : ∀ c : Char, (∀ v : Str, (esc v).count c = 0) →
          gi_lbl1.count c = 2 → gi_lbl2.count c = 2 → gi_lbl3.count c = 2 →
          gi_lbl4.count c = 2 → gi_lbl5.count c = 2 → gi_lbl6.count c = 2 →
          ∀ r b, green_item r = some b → (b.map (fun l => l.count c)).sum = 12 := by
        intro c hesc h1 h2 h3 h4 h5 h6 r b hb
        obtain ⟨a1, a2, a3, a4, a5, a6, rfl⟩ := green_item_inv r b hb
        simp [List.count_append, hesc, h1, h2, h3, h4, h5, h6]
      constructor
      · rw [count_pyStrip '<' (by decide), count_joinNL '<' (by decide),
            List.map_append, List.sum_append,
            hhd '<' count_esc_lt (by decide) (by decide) (by decide) (by decide),
            mapOpt_flatten_count green_item '<' 12
              (hitem '<' count_esc_lt (by decide) (by decide) (by decide) (by decide)
                (by decide) (by decide)) (head :: rest) items e2]
      · rw [count_pyStrip '>' (by decide), count_joinNL '>' (by decide),
            List.map_append, List.sum_append,
            hhd '>' count_esc_gt (by decide) (by decide) (by decide) (by decide),
            mapOpt_flatten_count green_item '>' 12
              (hitem '>' count_esc_gt (by decide) (by decide) (by decide) (by decide)
                (by decide) (by decide)) (head :: rest) items e2]
  · intro rows out hout hne
    cases rows with
    | nil => exact absurd rfl hne
    | cons head rest =>
      rw [format_sun_grouped] at hout
      rcases e1 : sun_header head with _ | hd <;> rw [e1] at hout
      · simp at hout
      rcases e2 : mapOpt sun_item (head :: rest) with _ | items <;> rw [e2] at hout
      · simp at hout
      simp only [Option.some_bind, Option.some.injEq] at hout
      subst hout
      have hhd : ∀ c : Char, (∀ v : Str, (esc v).count c = 0) →
          s_lbl0.count c = 2 → s_lbl1.count c = 2 → s_lbl2.count c = 2 → s_lbl3.count c = 2 →
          s_lbl4.count c = 2 → s_lbl5.count c = 2 → s_lbl6.count c = 2 →
          s_lbl13.count c = 2 → s_lbl14.count c = 2 →
          (hd.map (fun l => l.count c)).sum = 18 := by
        intro c hesc h0 h1 h2 h3 h4 h5 h6 h13 h14
        obtain ⟨a0, a1, a2, a3, a4, a5, a6, a13, a14, rfl⟩ := sun_header_inv head hd e1
        simp [List.count_append, hesc, h0, h1, h2, h3, h4, h5, h6, h13, h14]
      have hitem : ∀ c : Char, (∀ v : Str, (esc v).count c = 0) →
          si_lbl7.count c = 2 → si_lbl8.count c = 2 → si_lbl10.count c = 2 →
          si_lbl11.count c = 2 → si_lbl12.count c = 2 →
          ∀ r b, sun_item r = some b → (b.map (fun l => l.count c)).sum = 10 := by
        intro c hesc h7 h8 h10 h11 h12 r b hb
        obtain ⟨a7, a8, a10, a11, a12, rfl⟩ := sun_item_inv r b hb
        simp [List.count_append, hesc, h7, h8, h10, h11, h12]
      constructor
      · rw [count_pyStrip '<' (by decide), count_joinNL '<' (by decide),
            List.map_append, List.sum_append,
            hhd '<' count_esc_lt (by decide) (by decide) (by decide) (by decide) (by decide)
              (by decide) (by decide) (by decide) (by decide),
            mapOpt_flatten_count sun_item '<' 10
              (hitem '<' count_esc_lt (by decide) (by decide) (by decide) (by decide)
                (by decide)) (head :: rest) items e2]
      · rw [count_pyStrip '>' (by decide), count_joinNL '>' (by decide),
            List.map_append, List.sum_append,
            hhd '>' count_esc_gt (by decide) (by decide) (by decide) (by decide) (by decide)
              (by decide) (by decide) (by decide) (by decide),
            mapOpt_flatten_count sun_item '>' 10
              (hitem '>' count_esc_gt (by decide) (by decide) (by decide) (by decide)
                (by decide)) (head :: rest) items e2]

theorem claim_C7_witness :
    ((format_green_grouped [List.replicate 10 ("<&>".data)]).getD []).count '<' = 20 := by
  obtain ⟨out, hout⟩ : ∃ out, format_green_grouped [List.replicate 10 ("<&>".data)] = some out :=
    ⟨_, rfl⟩
  have h := (claim_C7_escaping.2.1 [List.replicate 10 ("<&>".data)] out hout (by simp)).1
  rw [hout]
  simpa using h

/-! ## Paginator (C2) -/

lemma joinNL_cons_ne (x : Str) (ys : List Str) (h : ys ≠ []) :
    joinNL (x :: ys) = x ++ '\n' :: joinNL ys := by
  cases ys with
  | nil => exact absurd rfl h
  | cons y t => rfl

lemma joinNL_append (xs ys : List Str) (hx : xs ≠ []) (hy : ys ≠ []) :
    joinNL (xs ++ ys) = joinNL xs ++ '\n' :: joinNL ys := by
  induction xs with
  | nil => exact absurd rfl hx
  | cons x t ih =>
    cases t with
    | nil => simpa using joinNL_cons_ne x ys hy
    | cons y tt =>
      rw [List.cons_append, joinNL_cons_ne x ((y :: tt) ++ ys) (by simp),
          ih (by simp), joinNL_cons_ne x (y :: tt) (by simp)]
      simp

lemma splitNL_ne_nil : ∀ s : Str, splitNL s ≠ [] := by
  intro s
  cases s with
  | nil => simp [splitNL]
  | cons c cs =>
    rw [splitNL]
    by_cases h : c = '\n'
    · simp [h]
    · rw [if_neg h]
      rcases e : splitNL cs with _ | ⟨l, ls⟩ <;> simp

lemma joinNL_splitNL : ∀ s : Str, joinNL (splitNL s) = s := by
  intro s
  induction s with
  | nil => rfl
  | cons c cs ih =>
    rw [splitNL]
    by_cases h : c = '\n'
    · rw [if_pos h, joinNL_cons_ne [] (splitNL cs) (splitNL_ne_nil cs), ih, h]
      rfl
    · rw [if_neg h]
      rcases e : splitNL cs with _ | ⟨l, ls⟩
      · exact absurd e (splitNL_ne_nil cs)
      · rw [e] at ih
        cases ls with
        | nil =>
          simp [joinNL] at ih ⊢
          exact ih
        | cons l2 ls2 =>
          rw [joinNL_cons_ne (c :: l) (l2 :: ls2) (by simp)] at *
          rw [joinNL_cons_ne l (l2 :: ls2) (by simp)] at ih
          simp [ih]

lemma send_chunks_ne_nil :
    ∀ (lines chunk : List Str) (size : Nat), chunk ≠ [] →
      send_chunks lines chunk size ≠ [] := by
  intro lines
  induction lines with
  | nil => intro chunk size h; simp [send_chunks, h]
  | cons line rest ih =>
    intro chunk size h
    rw [send_chunks]
    by_cases hc : size + line.length + 1 > 3900
    · simp [hc]
    · rw [if_neg hc]
      exact ih (chunk ++ [line]) _ (by simp)

lemma joinNL_send_chunks :
    ∀ (lines chunk : List Str) (size : Nat), chunk ≠ [] →
      joinNL (send_chunks lines chunk size) = joinNL (chunk ++ lines) := by
  intro lines
  induction lines with
  | nil => intro chunk size h; simp [send_chunks, h, joinNL]
  | cons line rest ih =>
    intro chunk size h
    rw [send_chunks]
    by_cases hc : size + line.length + 1 > 3900
    · rw [if_pos hc,
          joinNL_cons_ne _ _ (send_chunks_ne_nil rest [line] _ (by simp)),
          ih [line] _ (by simp), joinNL_append chunk (line :: rest) h (by simp)]
      simp
    · rw [if_neg hc, ih (chunk ++ [line]) _ (by simp)]
      simp

lemma splitNL_no_nl : ∀ x : Str, '\n' ∉ x → splitNL x = [x] := by
  intro x
  induction x with
  | nil => intro _; rfl
  | cons c cs ih =>
    intro h
    have hc : c ≠ '\n' := by
      intro hc; exact h (by simp [hc])
    have hcs : '\n' ∉ cs := by
      intro hm; exact h (by simp [hm])
    rw [splitNL, if_neg hc, ih hcs]

lemma splitNL_append_nl : ∀ (x y : Str), '\n' ∉ x →
    splitNL (x ++ '\n' :: y) = x :: splitNL y := by
  intro x
  induction x with
  | nil =>
    intro y _
    simp [splitNL]
  | cons c cs ih =>
    intro y h
    have hc : c ≠ '\n' := by
      intro hc; exact h (by simp [hc])
    have hcs : '\n' ∉ cs := by
      intro hm; exact h (by simp [hm])
    rw [List.cons_append, splitNL, if_neg hc, ih y hcs]

lemma mem_splitNL_no_nl : ∀ (s : Str), ∀ l ∈ splitNL s, '\n' ∉ l := by
  intro s
  induction s with
  | nil =>
    intro l hl
    simp [splitNL] at hl
    simp [hl]
  | cons c cs ih =>
    intro l hl
    rw [splitNL] at hl
    by_cases h : c = '\n'
    · rw [if_pos h] at hl
      rcases List.mem_cons.1 hl with hl | hl
      · simp [hl]
      · exact ih l hl
    · rw [if_neg h] at hl
      rcases e : splitNL cs with _ | ⟨l0, ls⟩
      · exact absurd e (splitNL_ne_nil cs)
      · rw [e] at hl
        rcases List.mem_cons.1 hl with hl | hl
        · subst hl
          have h0 : '\n' ∉ l0 := ih l0 (by rw [e]; exact List.mem_cons_self l0 ls)
          simp only [List.mem_cons, not_or]
          exact ⟨fun hh => h hh.symm, h0⟩
        · exact ih l (by rw [e]; exact List.mem_cons_of_mem l0 hl)

lemma splitNL_joinNL :
    ∀ chunk : List Str, chunk ≠ [] → (∀ l ∈ chunk, '\n' ∉ l) →
      splitNL (joinNL chunk) = chunk := by
  intro chunk
  induction chunk with
  | nil => intro h _; exact absurd rfl h
  | cons x t ih =>
    intro _ hfree
    cases t with
    | nil => exact splitNL_no_nl x (hfree x (by simp))
    | cons y tt =>
      rw [joinNL_cons_ne x (y :: tt) (by simp),
          splitNL_append_nl x (joinNL (y :: tt)) (hfree x (by simp)),
          ih (by simp) (fun l hl => hfree l (List.mem_cons_of_mem x hl))]

lemma flatten_split_send :
    ∀ (lines chunk : List Str) (size : Nat), chunk ≠ [] →
      (∀ l ∈ chunk, '\n' ∉ l) → (∀ l ∈ lines, '\n' ∉ l) →
      ((send_chunks lines chunk size).map splitNL).flatten = chunk ++ lines := by
  intro lines
  induction lines with
  | nil =>
    intro chunk size h hfree _
    simp [send_chunks, h, splitNL_joinNL chunk h hfree]
  | cons line rest ih =>
    intro chunk size h hfree hlines
    rw [send_chunks]
    by_cases hc : size + line.length + 1 > 3900
    · rw [if_pos hc]
      simp only [List.map_cons, List.flatten_cons]
      rw [splitNL_joinNL chunk h hfree,
          ih [line] _ (by simp) (by simpa using hlines line (by simp))
            (fun l hl => hlines l (List.mem_cons_of_mem line hl))]
      simp
    · rw [if_neg hc,
          ih (chunk ++ [line]) _ (by simp)
            (by
              intro l hl
              rcases List.mem_append.1 hl with h1 | h2
              · exact hfree l h1
              · have := List.mem_singleton.mp h2
                subst this
                exact hlines l (by simp))
            (fun l hl => hlines l (List.mem_cons_of_mem line hl))]
      simp

/-- The running `size` of the chunking loop: sum of line lengths plus one
separator each. -/
def sumLen (chunk : List Str) : Nat := (chunk.map (fun l => l.length + 1)).sum

lemma joinNL_length :
    ∀ chunk : List Str, chunk ≠ [] → (joinNL chunk).length + 1 = sumLen chunk := by
  intro chunk
  induction chunk with
  | nil => intro h; exact absurd rfl h
  | cons x t ih =>
    intro _
    cases t with
    | nil => simp [joinNL, sumLen]
    | cons y tt =>
      rw [joinNL_cons_ne x (y :: tt) (by simp)]
      have := ih (by simp)
      simp [sumLen, List.length_append] at this ⊢
      omega

lemma chunks_bound :
    ∀ (lines chunk : List Str) (size : Nat),
      size = sumLen chunk → (2 ≤ chunk.length → size ≤ 3900) →
      ∀ c ∈ send_chunks lines chunk size,
        c.length ≤ 3900 ∨ c ∈ chunk ∨ c ∈ lines := by
  intro lines
  induction lines with
  | nil =>
    intro chunk size hsz hbd c hc
    by_cases h : chunk = []
    · simp [send_chunks, h] at hc
    · rw [send_chunks, if_neg h] at hc
      have hc' := List.mem_singleton.mp hc
      subst hc'
      cases chunk with
      | nil => exact absurd rfl h
      | cons x t =>
        cases t with
        | nil => right; left; simp [joinNL]
        | cons y tt =>
          left
          have hj := joinNL_length (x :: y :: tt) (by simp)
          have hb := hbd (by simp)
          omega
  | cons line rest ih =>
    intro chunk size hsz hbd c hc
    rw [send_chunks] at hc
    by_cases hcond : size + line.length + 1 > 3900
    · rw [if_pos hcond] at hc
      rcases List.mem_cons.1 hc with hc1 | hc2
      · subst hc1
        cases chunk with
        | nil => left; simp [joinNL]
        | cons x t =>
          cases t with
          | nil => right; left; simp [joinNL]
          | cons y tt =>
            left
            have hj := joinNL_length (x :: y :: tt) (by simp)
            have hb := hbd (by simp)
            omega
      · have := ih [line] (line.length + 1) (by simp [sumLen]) (by simp) c hc2
        rcases this with h1 | h2 | h3
        · exact Or.inl h1
        · right; right
          have := List.mem_singleton.mp h2
          simp [this]
        · right; right; exact List.mem_cons_of_mem line h3
    · rw [if_neg hcond] at hc
      have := ih (chunk ++ [line]) (size + line.length + 1)
          (by simp [sumLen, hsz]; omega) (fun _ => by omega) c hc
      rcases this with h1 | h2 | h3
      · exact Or.inl h1
      · rcases List.mem_append.1 h2 with h2a | h2b
        · exact Or.inr (Or.inl h2a)
        · right; right
          have := List.mem_singleton.mp h2b
          simp [this]
      · right; right; exact List.mem_cons_of_mem line h3

/-- C2 counterexample: a report that is a single 4001-character line (over
the 4000 hard limit, and over the 3900 soft limit as one line) makes the
chunking loop flush an empty chunk first: the paginator emits an empty
first chunk, and joining the emitted chunks with newlines yields a leading
newline, so concatenation does not reconstruct the original text. -/
theorem claim_C2_cex :
    send_grouped_chunks (List.replicate 4001 'a') = [[], List.replicate 4001 'a']
      ∧ joinNL (send_grouped_chunks (List.replicate 4001 'a')) ≠ List.replicate 4001 'a' := by
  have hT : ('\n') ∉ List.replicate 4001 'a' := by
    simp only [List.mem_replicate]
    rintro ⟨-, h⟩
    exact absurd h (by decide)
  have hsplit : splitNL (List.replicate 4001 'a') = [List.replicate 4001 'a'] :=
    splitNL_no_nl _ hT
  have h1 : send_grouped_chunks (List.replicate 4001 'a')
      = [[], List.replicate 4001 'a'] := by
    rw [send_grouped_chunks, hsplit]
    simp only [send_chunks, List.length_replicate, List.nil_append]
    norm_num [joinNL]
  refine ⟨h1, ?_⟩
  intro hcontra
  rw [h1] at hcontra
  have hlen := congrArg List.length hcontra
  simp only [joinNL, List.length_cons, List.length_replicate, List.nil_append] at hlen
  omega

/-- C2 (amended): a text within the 4000 hard limit is emitted as exactly
one chunk equal to the text; a longer text is split at line boundaries
only (the emitted chunks' lines partition the original lines in order),
every chunk is an original line or stays within the 3900 soft limit, and
joining the chunks with newlines reconstructs the text — except that when
the very first line alone already exceeds the soft limit the loop first
flushes an empty chunk, and the concatenation is a newline followed by the
text. -/
theorem claim_C2_amended :
    (∀ t : Str, t.length ≤ 4000 → send_grouped_chunks t = [t])
    ∧ (∀ t : Str, 4000 < t.length →
        (∀ c ∈ send_grouped_chunks t, c.length ≤ 3900 ∨ c ∈ splitNL t)
        ∧ (((splitNL t).headD []).length + 1 ≤ 3900 →
            joinNL (send_grouped_chunks t) = t
            ∧ ((send_grouped_chunks t).map splitNL).flatten = splitNL t)
        ∧ (3900 < ((splitNL t).headD []).length + 1 →
            joinNL (send_grouped_chunks t) = '\n' :: t
            ∧ ((send_grouped_chunks t).map splitNL).flatten = [] :: splitNL t)) := by
  constructor
  · intro t ht
    simp [send_grouped_chunks, ht]
  · intro t ht
    have hsp : send_grouped_chunks t = send_chunks (splitNL t) [] 0 := by
      simp [send_grouped_chunks]
      omega
    rcases e : splitNL t with _ | ⟨l, ls⟩
    · exact absurd e (splitNL_ne_nil t)
    have hfree : ∀ x ∈ l :: ls, '\n' ∉ x := by
      rw [← e]; exact mem_splitNL_no_nl t
    have hjoin : joinNL (l :: ls) = t := by
      rw [← e]; exact joinNL_splitNL t
    rw [hsp, e]
    rw [send_chunks]
    simp only [List.headD_cons, Nat.zero_add, List.nil_append]
    by_cases hc : l.length + 1 > 3900
    · rw [if_pos hc]
      refine ⟨?_, ?_, ?_⟩
      · intro c hcm
        rcases List.mem_cons.1 hcm with h1 | h2
        · subst h1
          left
          simp [joinNL]
        · have := chunks_bound ls [l] (l.length + 1) (by simp [sumLen]) (by simp) c h2
          rcases this with h1 | h2 | h3
          · exact Or.inl h1
          · have := List.mem_singleton.mp h2
            right
            simp [this]
          · right
            exact List.mem_cons_of_mem l h3
      · intro hfit
        omega
      · intro _
        constructor
        · rw [joinNL_cons_ne _ _ (send_chunks_ne_nil ls [l] _ (by simp)),
              joinNL_send_chunks ls [l] _ (by simp)]
          simp [joinNL, hjoin]
        · simp only [List.map_cons, List.flatten_cons]
          rw [flatten_split_send ls [l] _ (by simp)
                (by simpa using hfree l (by simp))
                (fun x hx => hfree x (List.mem_cons_of_mem l hx))]
          simp [joinNL, splitNL]
    · rw [if_neg hc]
      refine ⟨?_, ?_, ?_⟩
      · intro c hcm
        have := chunks_bound ls [l] (l.length + 1) (by simp [sumLen]) (by simp) c hcm
        rcases this with h1 | h2 | h3
        · exact Or.inl h1
        · have := List.mem_singleton.mp h2
          right
          simp [this]
        · right
          exact List.mem_cons_of_mem l h3
      · intro _
        constructor
        · rw [joinNL_send_chunks ls [l] _ (by simp)]
          simpa using hjoin
        · rw [flatten_split_send ls [l] _ (by simp)
                (by simpa using hfree l (by simp))
                (fun x hx => hfree x (List.mem_cons_of_mem l hx))]
          simp
      · intro hbig
        omega

theorem claim_C2_witness :
    send_grouped_chunks ("ab\ncd".data) = ["ab\ncd".data] :=
  claim_C2_amended.1 ("ab\ncd".data) (by decide)

/-! ## Router: error containment and the mode invariant (C8, C10) -/

lemma router_query_branch (fetch : Bool → Str → Except Str (List (List Str)))
    (m : Str) (input : Str) (hm : m ≠ [])
    (hs : pyLower (pyStrip input) ∉ sun_keywords)
    (hg : pyLower (pyStrip input) ∉ green_keywords) :
    router true fetch (some m) input =
      (if digits_only (pyStrip input) = [] then (some m, [msg_send_digits])
       else
        match (if m = "sun".data then fetch true (digits_only (pyStrip input))
               else fetch false (digits_only (pyStrip input))) with
        | .error e => (some m, [msg_error_head ++ esc e])
        | .ok rows =>
          match send_grouped rows (if m = "sun".data then ("sun".data) else ("green".data)) with
          | none => (some m, [msg_error_head ++ esc msg_index_error])
          | some chunks => (some m, chunks)) := by
  rw [router]
  simp only [Bool.true_eq_false, if_false, if_neg hs, if_neg hg, if_neg hm]

/-- C8: with a source selected, handling a (non-keyword) query never changes
the session state — whether the remote lookup succeeds, fails, or the
formatter raises — and a remote failure is surfaced as exactly one escaped
error line. -/
theorem claim_C8_state_preserved :
    ∀ (fetch : Bool → Str → Except Str (List (List Str))) (m : Str) (input : Str),
      m ≠ [] →
      pyLower (pyStrip input) ∉ sun_keywords →
      pyLower (pyStrip input) ∉ green_keywords →
      (router true fetch (some m) input).1 = some m
      ∧ (∀ e : Str, digits_only (pyStrip input) ≠ [] →
          (if m = "sun".data then fetch true (digits_only (pyStrip input))
           else fetch false (digits_only (pyStrip input))) = .error e →
          (router true fetch (some m) input).2 = [msg_error_head ++ esc e]) := by
  intro fetch m input hm hs hg
  rw [router_query_branch fetch m input hm hs hg]
  constructor
  · by_cases hq : digits_only (pyStrip input) = []
    · simp [hq]
    · rw [if_neg hq]
      split
      · rfl
      · split <;> rfl
  · intro e hq hf
    rw [if_neg hq, hf]

theorem claim_C8_witness :
    (router true (fun _ _ => Except.error ("boom".data)) (some ("sun".data)) ("12".data)).1
        = some ("sun".data)
      ∧ (router true (fun _ _ => Except.error ("boom".data)) (some ("sun".data)) ("12".data)).2
        = [msg_error_head ++ esc ("boom".data)] := by
  have h := claim_C8_state_preserved (fun _ _ => Except.error ("boom".data))
      ("sun".data) ("12".data) (by decide) (by decide) (by decide)
  exact ⟨h.1, h.2 ("boom".data) (by decide) (by simp)⟩

lemma router_tail_fst (m0 : Option Str) (x : Except Str (List (List Str))) (md : Str) :
    (match x with
     | .error e => (m0, [msg_error_head ++ esc e])
     | .ok rows =>
       match send_grouped rows md with
       | none => (m0, [msg_error_head ++ esc msg_index_error])
       | some chunks => (m0, chunks)).1 = m0 := by
  rcases x with e | rows
  · rfl
  · dsimp only
    split <;> rfl

lemma router_mode_cases :
    ∀ (allowed : Bool) (fetch : Bool → Str → Except Str (List (List Str)))
      (m : Option Str) (input : Str),
      (router allowed fetch m input).1 = m
      ∨ ((router allowed fetch m input).1 = some ("sun".data)
          ∧ pyLower (pyStrip input) ∈ sun_keywords)
      ∨ ((router allowed fetch m input).1 = some ("green".data)
          ∧ pyLower (pyStrip input) ∈ green_keywords) := by
  intro allowed fetch m input
  rw [router]
  by_cases ha : allowed = false
  · simp [ha]
  · rw [if_neg ha]
    by_cases h1 : pyLower (pyStrip input) ∈ sun_keywords
    · rw [if_pos h1]
      exact Or.inr (Or.inl ⟨rfl, h1⟩)
    · rw [if_neg h1]
      by_cases h2 : pyLower (pyStrip input) ∈ green_keywords
      · rw [if_pos h2]
        exact Or.inr (Or.inr ⟨rfl, h2⟩)
      · rw [if_neg h2]
        left
        split
        · rfl
        · split
          · rfl
          · split
            · dsimp only
              split
              · rfl
              · exact router_tail_fst _ _ _
            · dsimp only
              split
              · rfl
              · exact router_tail_fst _ _ _

/-- C10: every reachable session mode is `none`, `"sun"` or `"green"`; the
router writes a source marker only when the trimmed, lowercased message is
one of that source's keyword synonyms (otherwise the mode is untouched);
`/start` is the only handler that resets the mode to `none`; `/help` never
writes the mode. -/
theorem claim_C10_mode_invariant :
    (∀ st, Reachable st →
        st = none ∨ st = some ("sun".data) ∨ st = some ("green".data))
    ∧ (∀ (allowed : Bool) (fetch : Bool → Str → Except Str (List (List Str)))
        (st : Option Str) (input : Str),
        (router allowed fetch st input).1 = st
        ∨ ((router allowed fetch st input).1 = some ("sun".data)
            ∧ pyLower (pyStrip input) ∈ sun_keywords)
        ∨ ((router allowed fetch st input).1 = some ("green".data)
            ∧ pyLower (pyStrip input) ∈ green_keywords))
    ∧ (∀ (allowed : Bool) (st : Option Str),
        (start allowed st).1 = none ∨ (start allowed st).1 = st)
    ∧ (∀ st : Option Str, (help_cmd st).1 = st) := by
  refine ⟨?_, router_mode_cases, ?_, fun st => rfl⟩
  · intro st h
    induction h with
    | init => exact Or.inl rfl
    | startStep allowed _ ih =>
      rw [start]
      by_cases ha : allowed = false
      · rw [if_pos ha]
        exact ih
      · rw [if_neg ha]
        exact Or.inl rfl
    | helpStep _ ih => exact ih
    | messageStep allowed fetch input h ih =>
      rcases router_mode_cases allowed fetch _ input with h1 | h2 | h3
      · rw [h1]
        exact ih
      · exact Or.inr (Or.inl h2.1)
      · exact Or.inr (Or.inr h3.1)
  · intro allowed st
    rw [start]
    by_cases ha : allowed = false
    · rw [if_pos ha]
      exact Or.inr rfl
    · rw [if_neg ha]
      exact Or.inl rfl

theorem claim_C10_witness :
    (none : Option Str) = none ∨ (none : Option Str) = some ("sun".data)
      ∨ (none : Option Str) = some ("green".data) :=
  claim_C10_mode_invariant.1 none Reachable.init
